import Mathlib

/-!
Verification of the SEO checker analysis pipeline (seo_checker.py, app.py).

Text is modelled as `List Char`. Python string primitives used by the source
(`str.strip`, `str.split`, `str.splitlines`, `str.join`) are embedded as
executable functions over `List Char`, restricted to the ASCII whitespace
and line-break characters (the unicode-only boundary characters of
`str.splitlines` are not modelled; they play no role in any claim).
-/

/-- Whitespace test matching Python `str.split()` / `str.strip()` on ASCII. -/
def isWS (c : Char) : Bool :=
  c == ' ' || c == '\t' || c == '\n' || c == '\r' || c == '\x0b' || c == '\x0c'

/-- Line-break test matching Python `str.splitlines()` on ASCII. -/
def isLB (c : Char) : Bool :=
  c == '\n' || c == '\r' || c == '\x0b' || c == '\x0c'

/-- Drops trailing whitespace, as the right half of Python `str.strip()`. -/
def stripEnd : List Char → List Char
  | [] => []
  | c :: cs =>
    let r := stripEnd cs
    if r.isEmpty && isWS c then [] else c :: r

/-- Python `str.strip()`: drop leading and trailing whitespace. -/
def pyStrip (l : List Char) : List Char := stripEnd (l.dropWhile isWS)

/-- Worker for `pySplit`; `cur` holds the reversed current token. -/
def pySplitAux : List Char → List Char → List (List Char)
  | [], cur => if cur.isEmpty then [] else [cur.reverse]
  | c :: cs, cur =>
    if isWS c then
      if cur.isEmpty then pySplitAux cs [] else cur.reverse :: pySplitAux cs []
    else pySplitAux cs (c :: cur)

/-- Python `str.split()` with no argument: maximal runs of non-whitespace. -/
def pySplit (l : List Char) : List (List Char) := pySplitAux l []

/-- Worker for `pySplitlines`; `cur` holds the reversed current line. -/
def splitlinesAux : List Char → List Char → List (List Char)
  | [], cur => if cur.isEmpty then [] else [cur.reverse]
  | '\r' :: '\n' :: cs, cur => cur.reverse :: splitlinesAux cs []
  | c :: cs, cur =>
    if isLB c then cur.reverse :: splitlinesAux cs []
    else splitlinesAux cs (c :: cur)

/-- Python `str.splitlines()` (ASCII boundaries, CRLF counted once). -/
def pySplitlines (l : List Char) : List (List Char) := splitlinesAux l []

/-- Worker for `splitTwoSpaces`; `cur` holds the reversed current chunk. -/
def splitTwoSpacesAux : List Char → List Char → List (List Char)
  | [], cur => [cur.reverse]
  | ' ' :: ' ' :: cs, cur => cur.reverse :: splitTwoSpacesAux cs []
  | c :: cs, cur => splitTwoSpacesAux cs (c :: cur)

/-- Python `str.split("  ")`: split at non-overlapping double spaces. -/
def splitTwoSpaces (l : List Char) : List (List Char) := splitTwoSpacesAux l []

/-- Python `" ".join(parts)`. -/
def joinSp : List (List Char) → List Char
  | [] => []
  | [x] => x
  | x :: xs => x ++ ' ' :: joinSp xs

/-- Counts maximal non-whitespace runs; the flag records whether the previous
character was whitespace (or the start of the text). -/
def ctAux : Bool → List Char → Nat
  | _, [] => 0
  | b, c :: cs => (if b && !isWS c then 1 else 0) + ctAux (isWS c) cs

/-- Models the body of `SEOChecker.extract_word_count` after the script/style
removal: splitlines, strip each line, split lines at double spaces, strip the
chunks, drop empty chunks, join with single spaces, and count the tokens of
the result with `str.split()`. -/
def wordCountOfText (text : List Char) : Nat :=
  let lines := (pySplitlines text).map pyStrip
  let chunks := lines.flatMap (fun line => (splitTwoSpaces line).map pyStrip)
  let cleaned := joinSp (chunks.filter (fun c => !c.isEmpty))
  (pySplit cleaned).length

/-!
The parsed HTML document. BeautifulSoup parsing itself is external library
code; the analysis operates on the parsed tree, which is embedded directly:
an element node carries its tag, its attributes (name, value) in document
order, and its children; a text node carries its text. A document is the
top-level list of nodes. `find_all` is preorder document-order traversal,
`get_text` concatenates all descendant text, matching the BeautifulSoup
operations the source uses.
-/

inductive Node where
  | text : List Char → Node
  | elem : String → List (String × List Char) → List Node → Node

abbrev Doc := List Node

/-- First value of the named attribute, as `Tag.get` / `Tag.has_attr`. -/
def attrLookup : List (String × List Char) → String → Option (List Char)
  | [], _ => none
  | (k, v) :: rest, key => if k == key then some v else attrLookup rest key

def Node.attr : Node → String → Option (List Char)
  | .text _, _ => none
  | .elem _ attrs _, key => attrLookup attrs key

def Node.hasAttr (n : Node) (key : String) : Bool := (n.attr key).isSome

/-- Tag-name test; text nodes match no tag. -/
def isElem (t : String) : Node → Bool
  | .text _ => false
  | .elem t2 _ _ => t2 == t

mutual
def findAllN (p : Node → Bool) : Node → List Node
  | .text s => if p (.text s) then [.text s] else []
  | .elem t a cs => (if p (.elem t a cs) then [.elem t a cs] else []) ++ findAllL p cs
def findAllL (p : Node → Bool) : List Node → List Node
  | [] => []
  | n :: ns => findAllN p n ++ findAllL p ns
end

mutual
def getTextN : Node → List Char
  | .text s => s
  | .elem _ _ cs => getTextL cs
def getTextL : List Node → List Char
  | [] => []
  | n :: ns => getTextN n ++ getTextL ns
end

/-!
`stripScriptsN` and `stripScriptsL` model the `decompose` loop at the top of
`SEOChecker.extract_word_count`: script and style subtrees are removed.
-/
mutual
def stripScriptsN : Node → List Node
  | .text s => [.text s]
  | .elem t a cs =>
    if t == "script" || t == "style" then [] else [.elem t a (stripScriptsL cs)]
def stripScriptsL : List Node → List Node
  | [] => []
  | n :: ns => stripScriptsN n ++ stripScriptsL ns
end

mutual
def noScriptStyleN : Node → Bool
  | .text _ => true
  | .elem t _ cs => !(t == "script" || t == "style") && noScriptStyleL cs
def noScriptStyleL : List Node → Bool
  | [] => true
  | n :: ns => noScriptStyleN n && noScriptStyleL ns
end

mutual
theorem stripScriptsN_id : ∀ n : Node, noScriptStyleN n = true → stripScriptsN n = [n]
  | .text _, _ => rfl
  | .elem t a cs, h => by
    have hand := h
    simp only [noScriptStyleN, Bool.and_eq_true, Bool.not_eq_eq_eq_not, Bool.not_true] at hand
    simp [stripScriptsN, hand.1, stripScriptsL_id cs hand.2]
theorem stripScriptsL_id : ∀ l : List Node, noScriptStyleL l = true → stripScriptsL l = l
  | [], _ => rfl
  | n :: ns, h => by
    have hand := h
    simp only [noScriptStyleL, Bool.and_eq_true] at hand
    simp [stripScriptsL, stripScriptsN_id n hand.1, stripScriptsL_id ns hand.2]
end

/-!
URL primitives. These embed the `urllib.parse` functions the source calls
(`urlparse().netloc`, `urlparse().scheme`, `urljoin`, `urldefrag`) on the
common absolute- and relative-URL shapes; dot-segment normalisation and the
rarely hit same-scheme relative forms of `urljoin` are not modelled.
-/

def isSchemeChar (c : Char) : Bool :=
  c.isAlpha || c.isDigit || c == '+' || c == '-' || c == '.'

/-- Splits a leading `scheme:` off a URL, if present. -/
def schemeSplit (u : List Char) : Option (List Char × List Char) :=
  match u.takeWhile isSchemeChar, u.drop (u.takeWhile isSchemeChar).length with
  | c :: s, ':' :: rest => if c.isAlpha then some (c :: s, rest) else none
  | _, _ => none

def schemeOf (u : List Char) : List Char := ((schemeSplit u).map (fun p => p.1)).getD []

def afterScheme (u : List Char) : List Char := ((schemeSplit u).map (fun p => p.2)).getD u

/-- Models `urlparse(u).netloc`. -/
def netlocOf (u : List Char) : List Char :=
  match afterScheme u with
  | '/' :: '/' :: rest =>
    rest.takeWhile (fun c => !(c == '/') && !(c == '?') && !(c == '#'))
  | _ => []

/-- Models `urlparse(u).path`. -/
def pathOf (u : List Char) : List Char :=
  let r := afterScheme u
  let r2 := match r with
    | '/' :: '/' :: rest =>
      rest.dropWhile (fun c => !(c == '/') && !(c == '?') && !(c == '#'))
    | _ => r
  r2.takeWhile (fun c => !(c == '?') && !(c == '#'))

/-- Models `urldefrag(u)[0]`: everything before the first hash. -/
def defragment (u : List Char) : List Char := u.takeWhile (fun c => !(c == '#'))

/-- Everything up to and including the final slash of a path. -/
def dirOfPath (p : List Char) : List Char :=
  (p.reverse.dropWhile (fun c => !(c == '/'))).reverse

/-- Models `urljoin(base, url)` for the shapes that occur in link hrefs:
absolute URLs, scheme-relative, host-relative and path-relative references. -/
def urljoin (base url : List Char) : List Char :=
  if url.isEmpty then base
  else if (schemeSplit url).isSome then url
  else
    match url with
    | '/' :: '/' :: _ => schemeOf base ++ ':' :: url
    | '/' :: _ => schemeOf base ++ ("://".toList) ++ netlocOf base ++ url
    | _ =>
      let d := dirOfPath (pathOf base)
      let d2 := if d.isEmpty then ['/'] else d
      schemeOf base ++ ("://".toList) ++ netlocOf base ++ d2 ++ url

/-!
The field extractors of seo_checker.py, one per source method. Each returns
the record slice the Python method returns as a dict.
-/

structure TitleInfo where
  title : List Char
  title_length : Nat
  title_exists : Bool
  title_optimal : Bool
deriving DecidableEq

/-- Models `SEOChecker.extract_title` (seo_checker.py lines 79 to 89). -/
def extract_title (doc : Doc) : TitleInfo :=
  let t := match (findAllL (isElem "title") doc).head? with
    | some n => pyStrip (getTextN n)
    | none => []
  { title := t, title_length := t.length, title_exists := !t.isEmpty,
    title_optimal := decide (30 ≤ t.length ∧ t.length ≤ 60) }

structure MetaInfo where
  meta_description : List Char
  meta_description_length : Nat
  meta_description_exists : Bool
  meta_description_optimal : Bool
deriving DecidableEq

/-- Element test for `soup.find("meta", attrs=dict(name="description"))`. -/
def isMetaDescription (n : Node) : Bool :=
  isElem "meta" n && (n.attr "name" == some ("description".toList))

/-- Models `SEOChecker.extract_meta_description` (lines 91 to 101). -/
def extract_meta_description (doc : Doc) : MetaInfo :=
  let d := match (findAllL isMetaDescription doc).head? with
    | some n => pyStrip ((n.attr "content").getD [])
    | none => []
  { meta_description := d, meta_description_length := d.length,
    meta_description_exists := !d.isEmpty,
    meta_description_optimal := decide (120 ≤ d.length ∧ d.length ≤ 160) }

structure CanonicalInfo where
  canonical_url : List Char
  canonical_exists : Bool
deriving DecidableEq

/-- Models `SEOChecker.extract_canonical_url` (lines 103 to 111). -/
def extract_canonical_url (doc : Doc) : CanonicalInfo :=
  let u := match (findAllL (fun n =>
      isElem "link" n && (n.attr "rel" == some ("canonical".toList))) doc).head? with
    | some n => (n.attr "href").getD []
    | none => []
  { canonical_url := u, canonical_exists := !u.isEmpty }

structure HeadingsInfo where
  headings : List (List (List Char))
  heading_counts : List Nat
  has_h1 : Bool
  multiple_h1 : Bool
  h1_optimal : Bool
deriving DecidableEq

def headingTags : List String := ["h1", "h2", "h3", "h4", "h5", "h6"]

/-- Models `SEOChecker.extract_headings` (lines 113 to 134): heading texts and
counts per level h1..h6, plus the derived h1 flags. -/
def extract_headings (doc : Doc) : HeadingsInfo :=
  let hs := headingTags.map (fun t =>
    (findAllL (isElem t) doc).map (fun n => pyStrip (getTextN n)))
  let counts := headingTags.map (fun t => (findAllL (isElem t) doc).length)
  let h1_count := (findAllL (isElem "h1") doc).length
  { headings := hs, heading_counts := counts,
    has_h1 := decide (0 < h1_count), multiple_h1 := decide (1 < h1_count),
    h1_optimal := h1_count == 1 }

structure WordCountInfo where
  word_count : Nat
  content_length_optimal : Bool
deriving DecidableEq

/-- Models `SEOChecker.extract_word_count` (lines 136 to 155). The source
method mutates the shared soup (`decompose`); the embedding returns the
modified document alongside the slice. -/
def extract_word_count (doc : Doc) : WordCountInfo × Doc :=
  let doc2 := stripScriptsL doc
  let wc := wordCountOfText (getTextL doc2)
  ({ word_count := wc, content_length_optimal := decide (300 ≤ wc) }, doc2)

structure ImagesInfo where
  total_images : Nat
  images_without_alt : Nat
  images_with_empty_alt : Nat
  images_alt_optimization : ℚ
deriving DecidableEq

/-- The per-image counting loop of `extract_images`: (without alt, empty alt). -/
def countAltMissing : List Node → Nat × Nat
  | [] => (0, 0)
  | img :: rest =>
    let p := countAltMissing rest
    if !(img.hasAttr "alt") then (p.1 + 1, p.2)
    else if (pyStrip ((img.attr "alt").getD [])).isEmpty then (p.1, p.2 + 1)
    else p

/-- Models `SEOChecker.extract_images` (lines 157 to 176). -/
def extract_images (doc : Doc) : ImagesInfo :=
  let imgs := findAllL (isElem "img") doc
  let p := countAltMissing imgs
  { total_images := imgs.length, images_without_alt := p.1,
    images_with_empty_alt := p.2,
    images_alt_optimization :=
      ((imgs.length : ℚ) - p.1 - p.2) / ((max imgs.length 1 : Nat) : ℚ) }

structure LinksInfo where
  total_links : Nat
  internal_links : List (List Char)
  external_links : List (List Char)
  internal_links_count : Nat
  external_links_count : Nat
deriving DecidableEq

def headIsHash : List Char → Bool
  | '#' :: _ => true
  | _ => false

/-- Resolve an href against the base URL and strip the fragment. -/
def cleanResolve (base href : List Char) : List Char := defragment (urljoin base href)

/-- The anchor loop of `extract_links`: strips each href, skips empty and
fragment-only hrefs, resolves the rest and partitions them by host equality
with the base URL, preserving document order. -/
def partitionHrefs (base : List Char) : List (List Char) → List (List Char) × List (List Char)
  | [] => ([], [])
  | href :: rest =>
    let p := partitionHrefs base rest
    let h := pyStrip href
    if h.isEmpty || headIsHash h then p
    else
      let clean := cleanResolve base h
      if netlocOf clean == netlocOf base then (clean :: p.1, p.2)
      else (p.1, clean :: p.2)

/-- `soup.find_all("a", href=True)`. -/
def anchorTags (doc : Doc) : List Node :=
  findAllL (fun n => isElem "a" n && n.hasAttr "href") doc

/-- Models `SEOChecker.extract_links` (lines 178 to 209). `list(set(...))` is
modelled by `List.dedup`; the Python set order is unspecified, so one
canonical duplicate-free order is chosen. -/
def extract_links (doc : Doc) (base_url : List Char) : LinksInfo :=
  let links := anchorTags doc
  let hrefs := links.map (fun n => (n.attr "href").getD [])
  let p := partitionHrefs base_url hrefs
  { total_links := links.length,
    internal_links := p.1.dedup, external_links := p.2.dedup,
    internal_links_count := p.1.dedup.length,
    external_links_count := p.2.dedup.length }

/-!
The network surface. `Env.get` models `session.get` (`none` is a transport
exception, otherwise a response with status, parsed body, final URL and
elapsed time); `Env.headStatus` models `session.head` used by the link
sampler (an error value carries the exception text).
-/

structure Response where
  status_code : Nat
  body : Doc
  final_url : List Char
  load_time : ℚ

structure Env where
  get : List Char → Option Response
  headStatus : List Char → Except (List Char) Nat

structure PageData where
  content : Doc
  load_time : ℚ
  status_code : Nat
  final_url : List Char

/-- Models `SEOChecker.fetch_page` (lines 52 to 73): a non-200 status or a
transport exception both yield failure. -/
def fetch_page (env : Env) (url : List Char) : Option PageData :=
  match env.get url with
  | some r =>
    if r.status_code == 200 then
      some { content := r.body, load_time := r.load_time,
             status_code := r.status_code, final_url := r.final_url }
    else none
  | none => none

structure BrokenLink where
  url : List Char
  status_code : Option Nat
  error : Option (List Char)
deriving DecidableEq

structure BrokenLinksInfo where
  checked_links : Nat
  broken_links : List BrokenLink
  broken_links_count : Nat
deriving DecidableEq

/-- Models `SEOChecker.check_broken_links` (lines 211 to 239): probe the
first 20 links in order; status at least 400 or a transport failure records
a broken entry; every probed link counts as checked. -/
def brokenStep (env : Env) (acc : Nat × List BrokenLink) (link : List Char) :
    Nat × List BrokenLink :=
  match env.headStatus link with
  | .ok code =>
    if 400 ≤ code then
      (acc.1 + 1, acc.2 ++ [{ url := link, status_code := some code, error := none }])
    else (acc.1 + 1, acc.2)
  | .error e =>
    (acc.1 + 1, acc.2 ++ [{ url := link, status_code := none, error := some e }])

def check_broken_links (env : Env) (links : List (List Char)) : BrokenLinksInfo :=
  let toCheck := links.take 20
  let p := toCheck.foldl (brokenStep env) (0, [])
  { checked_links := p.1, broken_links := p.2, broken_links_count := p.2.length }

structure SiteInfo where
  robots_txt_exists : Bool
  sitemap_xml_exists : Bool
  robots_txt_url : List Char
  sitemap_xml_url : List Char
deriving DecidableEq

/-- Models `SEOChecker.check_robots_and_sitemap` (lines 241 to 269): probe
`scheme://host/robots.txt` and `scheme://host/sitemap.xml`; any probe error
or non-200 status yields false. -/
def check_robots_and_sitemap (env : Env) (base_url : List Char) : SiteInfo :=
  let root := schemeOf base_url ++ ("://".toList) ++ netlocOf base_url
  let robots_url := root ++ ("/robots.txt".toList)
  let sitemap_url := root ++ ("/sitemap.xml".toList)
  let rOk := match env.get robots_url with
    | some r => r.status_code == 200
    | none => false
  let sOk := match env.get sitemap_url with
    | some r => r.status_code == 200
    | none => false
  { robots_txt_exists := rOk, sitemap_xml_exists := sOk,
    robots_txt_url := robots_url, sitemap_xml_url := sitemap_url }

structure SocialInfo where
  og_tags : List (List Char × List Char)
  twitter_tags : List (List Char × List Char)
  og_tags_count : Nat
  twitter_tags_count : Nat
  has_og_title : Bool
  has_og_description : Bool
  has_og_image : Bool
  has_twitter_card : Bool
deriving DecidableEq

/-- Python dict assignment on an association list: last write wins, key order
is first-insertion order. -/
def dictInsert (m : List (List Char × List Char)) (k v : List Char) :
    List (List Char × List Char) :=
  if m.any (fun p => p.1 == k) then m.map (fun p => if p.1 == k then (k, v) else p)
  else m ++ [(k, v)]

def buildTagDict (tags : List Node) (key : String) : List (List Char × List Char) :=
  tags.foldl (fun m n => dictInsert m ((n.attr key).getD []) ((n.attr "content").getD [])) []

/-- Attribute-value test for the compiled-regex matches `^og:`/`^twitter:`. -/
def attrStartsWith (n : Node) (key : String) (p : List Char) : Bool :=
  match n.attr key with
  | some v => p.isPrefixOf v
  | none => false

/-- Models `SEOChecker.extract_social_meta_tags` (lines 271 to 299). -/
def extract_social_meta_tags (doc : Doc) : SocialInfo :=
  let ogMetas := findAllL (fun n =>
    isElem "meta" n && attrStartsWith n "property" ("og:".toList)) doc
  let twMetas := findAllL (fun n =>
    isElem "meta" n && attrStartsWith n "name" ("twitter:".toList)) doc
  let og := buildTagDict ogMetas "property"
  let tw := buildTagDict twMetas "name"
  { og_tags := og, twitter_tags := tw,
    og_tags_count := og.length, twitter_tags_count := tw.length,
    has_og_title := og.any (fun p => p.1 == ("og:title".toList)),
    has_og_description := og.any (fun p => p.1 == ("og:description".toList)),
    has_og_image := og.any (fun p => p.1 == ("og:image".toList)),
    has_twitter_card := tw.any (fun p => p.1 == ("twitter:card".toList)) }

structure BacklinkInfo where
  potential_referring_domains : List (List Char)
  referring_domains_count : Nat
deriving DecidableEq

/-- Substring test, as the Python `in` operator on strings. -/
def hasSubstr : List Char → List Char → Bool
  | s, sub =>
    match s with
    | [] => sub.isEmpty
    | _ :: rest => sub.isPrefixOf s || hasSubstr rest sub

/-- Models `SEOChecker.extract_backlink_insights` (lines 301 to 319). -/
def extract_backlink_insights (doc : Doc) (base_url : List Char) : BacklinkInfo :=
  let base_domain := netlocOf base_url
  let links := findAllL (fun n => isElem "a" n && n.hasAttr "href") doc
  let doms := links.foldl (fun acc n =>
    let href := (n.attr "href").getD []
    if hasSubstr href base_domain then
      let d := netlocOf href
      if !(d == base_domain) then acc ++ [d] else acc
    else acc) []
  { potential_referring_domains := doms.dedup,
    referring_domains_count := doms.dedup.length }

/-!
The per-URL orchestrator. The result record mirrors the incrementally built
Python dict of `analyze_url`: the fields written only on a successful fetch
are `Option`-valued, `none` meaning the key is absent from the dict.
-/

structure AnalysisResult where
  url : List Char
  timestamp : Nat
  analysis_successful : Bool
  error : Option (List Char)
  load_time : Option ℚ
  status_code : Option Nat
  final_url : Option (List Char)
  title_info : Option TitleInfo
  meta_info : Option MetaInfo
  canonical_info : Option CanonicalInfo
  headings_info : Option HeadingsInfo
  word_count_info : Option WordCountInfo
  images_info : Option ImagesInfo
  links_info : Option LinksInfo
  broken_info : Option BrokenLinksInfo
  site_info : Option SiteInfo
  social_info : Option SocialInfo
  backlink_info : Option BacklinkInfo
deriving DecidableEq

/-- The `ValueError("Invalid IPv6 URL")` condition of `urllib.parse`: the
authority component of the URL contains one bracket without its partner. -/
def invalidIPv6 (u : List Char) : Bool :=
  ((netlocOf u).contains '[') != ((netlocOf u).contains ']')

/-- The URL-parsing exception `extract_links` can raise, caught by the
catch-all except of `analyze_url` (seo_checker.py lines 375 to 377):
`urlparse(base_url)` at line 181 raises when the base URL has a
bracket-mismatched host, and the `urljoin`/`urlparse` calls at lines 192 and
196 raise on any processed href with a bracket-mismatched host. The result
is the text of the raised ValueError, or `none` when no call raises. -/
def extract_links_exc (doc : Doc) (base : List Char) : Option (List Char) :=
  if invalidIPv6 base then some ("Invalid IPv6 URL".toList)
  else if (anchorTags doc).any (fun n =>
      let h := pyStrip ((n.attr "href").getD [])
      !(h.isEmpty || headIsHash h) && invalidIPv6 h) then
    some ("Invalid IPv6 URL".toList)
  else none

/-- Models `SEOChecker.analyze_url` (lines 321 to 379). A fetch failure ends
the analysis with only identity, error and the failure flag. On a successful
fetch the extractors run in source order, with the soup mutation of
`extract_word_count` threaded to the extractors that run after it. The
catch-all except of lines 375 to 377 is modelled at its one reachable raise
site, the URL parsing inside `extract_links`: the fields merged before that
point stay populated, the later ones are absent, and the exception text
becomes the error. -/
def analyze_url (env : Env) (ts : Nat) (url : List Char) : AnalysisResult :=
  match fetch_page env url with
  | none =>
    { url := url, timestamp := ts, analysis_successful := false,
      error := some ("Failed to fetch page".toList),
      load_time := none, status_code := none, final_url := none,
      title_info := none, meta_info := none, canonical_info := none,
      headings_info := none, word_count_info := none, images_info := none,
      links_info := none, broken_info := none, site_info := none,
      social_info := none, backlink_info := none }
  | some pd =>
    let doc := pd.content
    let wcPair := extract_word_count doc
    let doc2 := wcPair.2
    match extract_links_exc doc2 url with
    | some e =>
      { url := url, timestamp := ts, analysis_successful := false,
        error := some e,
        load_time := some pd.load_time, status_code := some pd.status_code,
        final_url := some pd.final_url,
        title_info := some (extract_title doc),
        meta_info := some (extract_meta_description doc),
        canonical_info := some (extract_canonical_url doc),
        headings_info := some (extract_headings doc),
        word_count_info := some wcPair.1,
        images_info := some (extract_images doc2),
        links_info := none, broken_info := none, site_info := none,
        social_info := none, backlink_info := none }
    | none =>
      let linksData := extract_links doc2 url
      { url := url, timestamp := ts, analysis_successful := true, error := none,
        load_time := some pd.load_time, status_code := some pd.status_code,
        final_url := some pd.final_url,
        title_info := some (extract_title doc),
        meta_info := some (extract_meta_description doc),
        canonical_info := some (extract_canonical_url doc),
        headings_info := some (extract_headings doc),
        word_count_info := some wcPair.1,
        images_info := some (extract_images doc2),
        links_info := some linksData,
        broken_info := some (check_broken_links env
          (linksData.internal_links ++ linksData.external_links)),
        site_info := some (check_robots_and_sitemap env url),
        social_info := some (extract_social_meta_tags doc2),
        backlink_info := some (extract_backlink_insights doc2 url) }

/-- Models `SEOChecker.analyze_urls` (lines 381 to 393): one result appended
per URL, in input order. -/
def analyze_urls (env : Env) (ts : Nat) (urls : List (List Char)) :
    List AnalysisResult :=
  urls.foldl (fun results url => results ++ [analyze_url env ts url]) []

/-!
The score aggregator of app.py, `create_seo_score_chart` (lines 179 to 228).
Python reads the result dict with `result.get(...)`, whose `None`/`0`
defaults are modelled by `Option.getD`.
-/

def getFlag (o : Option Bool) : Bool := o.getD false

/-- Title category score (app.py line 191). -/
def title_score (r : AnalysisResult) : ℚ :=
  if getFlag (r.title_info.map (fun t => t.title_optimal)) then 100
  else if getFlag (r.title_info.map (fun t => t.title_exists)) then 50 else 0

/-- Meta-description category score (app.py line 192). -/
def meta_score (r : AnalysisResult) : ℚ :=
  if getFlag (r.meta_info.map (fun m => m.meta_description_optimal)) then 100
  else if getFlag (r.meta_info.map (fun m => m.meta_description_exists)) then 50 else 0

/-- H1 category score (app.py line 193). -/
def h1_score (r : AnalysisResult) : ℚ :=
  if getFlag (r.headings_info.map (fun h => h.h1_optimal)) then 100
  else if getFlag (r.headings_info.map (fun h => h.has_h1)) then 50 else 0

/-- Content category score (app.py line 194). -/
def content_score (r : AnalysisResult) : ℚ :=
  if getFlag (r.word_count_info.map (fun w => w.content_length_optimal)) then 100 else 50

/-- Technical category score (app.py lines 195 to 199). -/
def technical_score (r : AnalysisResult) : ℚ :=
  ((if getFlag (r.site_info.map (fun s => s.robots_txt_exists)) then 100 else 0)
    + (if getFlag (r.site_info.map (fun s => s.sitemap_xml_exists)) then 100 else 0)
    + (if getFlag (r.canonical_info.map (fun c => c.canonical_exists)) then 100 else 0)) / 3

/-- Images category score (app.py lines 201 to 206). -/
def images_score (r : AnalysisResult) : ℚ :=
  if 0 < (r.images_info.map (fun i => i.total_images)).getD 0 then
    ((r.images_info.map (fun i => i.images_alt_optimization)).getD 0) * 100
  else 100

/-- Social category score (app.py lines 209 to 213). -/
def social_score (r : AnalysisResult) : ℚ :=
  ((if getFlag (r.social_info.map (fun s => s.has_og_title)) then 100 else 0)
    + (if getFlag (r.social_info.map (fun s => s.has_og_description)) then 100 else 0)
    + (if getFlag (r.social_info.map (fun s => s.has_og_image)) then 100 else 0)) / 3

/-- Overall score (app.py line 216). -/
def overall_score (r : AnalysisResult) : ℚ :=
  (title_score r + meta_score r + h1_score r + content_score r
    + technical_score r + images_score r + social_score r) / 7

/-!
Support definitions for the claim theorems: the verdict a single link probe
produces, the resolved-URL characterisation of the link partition, and
concrete documents and environments used as witnesses and counterexamples.
-/

/-- The broken-link verdict of one probe: a status of at least 400 records
the code, a transport failure records the reason, anything else is fine. -/
def brokenProbe (env : Env) (link : List Char) : Option BrokenLink :=
  match env.headStatus link with
  | .ok code =>
    if 400 ≤ code then some { url := link, status_code := some code, error := none }
    else none
  | .error e => some { url := link, status_code := none, error := some e }

/-- The verdict of the anchor loop on one raw href: dropped when empty or
fragment-only after stripping, otherwise the resolved defragmented URL. -/
def resolveOne (base href : List Char) : Option (List Char) :=
  let h := pyStrip href
  if h.isEmpty || headIsHash h then none else some (cleanResolve base h)

/-- The resolved, defragmented URLs of a list of raw hrefs, with empty and
fragment-only hrefs dropped. -/
def resolvedHrefs (base : List Char) (hrefs : List (List Char)) : List (List Char) :=
  hrefs.filterMap (resolveOne base)

/-- The raw hrefs of the anchors of a document, in document order. -/
def docHrefs (doc : Doc) : List (List Char) :=
  (anchorTags doc).map (fun n => (n.attr "href").getD [])

/-- An environment whose every GET returns HTTP 404. -/
def env404 : Env :=
  { get := fun _ => some { status_code := 404, body := [], final_url := [], load_time := 0 },
    headStatus := fun _ => .ok 200 }

/-- A document whose only anchor has a fragment-only href. -/
def fragmentOnlyDoc : Doc := [Node.elem "a" [("href", "#sec".toList)] []]

def fragmentOnlyBase : List Char := "http://example.com/page".toList

/-- An h1 whose text is interrupted by a script element. -/
def scriptInH1Doc : Doc :=
  [Node.elem "h1" [] [Node.text ("Hello".toList),
    Node.elem "script" [] [Node.text ("x".toList)]]]

/-- A document with no script or style elements. -/
def plainDoc : Doc := [Node.elem "h1" [] [Node.text ("Hello".toList)]]

/-- A document whose title is present but whitespace-only. -/
def blankTitleDoc : Doc := [Node.elem "title" [] [Node.text ("  ".toList)]]

def blankTitleNode : Node := Node.elem "title" [] [Node.text ("  ".toList)]

/-- A document whose meta description is present with a blank content. -/
def blankMetaDoc : Doc :=
  [Node.elem "meta" [("name", "description".toList), ("content", " ".toList)] []]

def blankMetaNode : Node :=
  Node.elem "meta" [("name", "description".toList), ("content", " ".toList)] []

/-- A document whose only anchor carries the bracket-mismatched href
"http://[", on which the URL parsing inside extract_links raises. -/
def ipv6Doc : Doc := [Node.elem "a" [("href", "http://[".toList)] []]

/-- An environment that successfully serves `ipv6Doc` for every URL. -/
def envBadHref : Env :=
  { get := fun _ =>
      some { status_code := 200, body := ipv6Doc, final_url := [], load_time := 0 },
    headStatus := fun _ => .ok 200 }

theorem isWS_of_isLB (c : Char) (h : isLB c = true) : isWS c = true := by
  revert h; simp [isLB, isWS]; tauto

theorem ctAux_append (b : Bool) (x y : List Char) :
    ctAux b (x ++ y) = ctAux b x + ctAux (x.foldl (fun _ c => isWS c) b) y := by
  induction x generalizing b with
  | nil => simp [ctAux]
  | cons c cs ih => simp [ctAux, ih (isWS c)]; omega

theorem ctAux_ws_head (b : Bool) (c : Char) (l : List Char) (h : isWS c = true) :
    ctAux b (c :: l) = ctAux true l := by
  simp [ctAux, h]

theorem ctAux_all_ws (b : Bool) (l : List Char) (h : ∀ c ∈ l, isWS c = true) :
    ctAux b l = 0 := by
  induction l generalizing b with
  | nil => rfl
  | cons c cs ih =>
    have hc := h c (by simp)
    have ht := ih true (fun d hd => h d (by simp [hd]))
    simp [ctAux, hc, ht]

theorem pySplitAux_length (l cur : List Char) :
    (pySplitAux l cur).length
      = ctAux cur.isEmpty l + (if cur.isEmpty then 0 else 1) := by
  induction l generalizing cur with
  | nil =>
    by_cases h : cur.isEmpty <;> simp [pySplitAux, h, ctAux]
  | cons c cs ih =>
    by_cases hw : isWS c
    · by_cases hc : cur.isEmpty <;>
        simp [pySplitAux, hw, hc, ctAux, ih []]
    · have hne : ((c :: cur).isEmpty) = false := by simp
      have := ih (c :: cur)
      rw [hne] at this
      by_cases hc : cur.isEmpty
      · simp [pySplitAux, hw, hc, ctAux, this]
        omega
      · simp [pySplitAux, hw, hc, ctAux, this]

theorem pySplit_length (l : List Char) : (pySplit l).length = ctAux true l := by
  have := pySplitAux_length l []
  simpa [pySplit] using this

theorem ctAux_stripEnd_eq_zero (b : Bool) (l : List Char) (h : stripEnd l = []) :
    ctAux b l = 0 := by
  induction l generalizing b with
  | nil => rfl
  | cons c cs ih =>
    simp only [stripEnd] at h
    by_cases hcond : (stripEnd cs).isEmpty && isWS c
    · have h1 : (stripEnd cs).isEmpty = true := by
        revert hcond; cases (stripEnd cs).isEmpty <;> simp
      have h2 : isWS c = true := by
        revert hcond; cases isWS c <;> simp
      have h3 : stripEnd cs = [] := by simpa [List.isEmpty_iff] using h1
      simp [ctAux, h2, ih true h3]
    · rw [if_neg hcond] at h
      exact absurd h (by simp)

theorem ctAux_stripEnd (b : Bool) (l : List Char) :
    ctAux b (stripEnd l) = ctAux b l := by
  induction l generalizing b with
  | nil => rfl
  | cons c cs ih =>
    simp only [stripEnd]
    by_cases hcond : (stripEnd cs).isEmpty && isWS c
    · have h1 : (stripEnd cs).isEmpty = true := by
        revert hcond; cases (stripEnd cs).isEmpty <;> simp
      have h2 : isWS c = true := by
        revert hcond; cases isWS c <;> simp
      have h3 : stripEnd cs = [] := by simpa [List.isEmpty_iff] using h1
      simp [h3, ctAux, h2, ctAux_stripEnd_eq_zero true cs h3]
    · simp only [hcond, if_neg, Bool.false_eq_true, not_false_iff]
      simp [ctAux, ih]

theorem ctAux_dropWhile_ws (l : List Char) :
    ctAux true (l.dropWhile isWS) = ctAux true l := by
  induction l with
  | nil => rfl
  | cons c cs ih =>
    by_cases hw : isWS c
    · simp [List.dropWhile_cons, hw, ih, ctAux]
    · simp [List.dropWhile_cons, hw]

theorem ctAux_pyStrip (l : List Char) : ctAux true (pyStrip l) = ctAux true l := by
  rw [pyStrip, ctAux_stripEnd, ctAux_dropWhile_ws]

theorem ct_splitlines (l cur : List Char) :
    ((splitlinesAux l cur).map (ctAux true)).sum = ctAux true (cur.reverse ++ l) := by
  induction l, cur using splitlinesAux.induct with
  | case1 cur h =>
    simp only [splitlinesAux, h, if_pos]
    simp_all [List.isEmpty_iff, ctAux]
  | case2 cur h =>
    simp [splitlinesAux, h]
  | case3 cs cur ih =>
    simp only [List.reverse_nil, List.nil_append] at ih
    simp only [splitlinesAux, List.map_cons, List.sum_cons, ih]
    rw [ctAux_append, ctAux_ws_head _ _ _ (by simp [isWS]),
      ctAux_ws_head _ _ _ (by simp [isWS])]
  | case4 c cs cur h1 h2 ih =>
    simp only [List.reverse_nil, List.nil_append] at ih
    simp only [splitlinesAux, h2, if_pos, List.map_cons, List.sum_cons, ih]
    rw [ctAux_append, ctAux_ws_head _ _ _ (isWS_of_isLB c h2)]
  | case5 c cs cur h1 h2 ih =>
    simp only [List.reverse_cons, List.append_assoc, List.singleton_append] at ih
    simp only [splitlinesAux, h2, if_neg, Bool.false_eq_true, not_false_iff, ih]

theorem ct_pySplitlines (l : List Char) :
    ((pySplitlines l).map (ctAux true)).sum = ctAux true l := by
  have := ct_splitlines l []
  simpa [pySplitlines] using this

theorem ct_splitTwoSpaces_aux (l cur : List Char) :
    ((splitTwoSpacesAux l cur).map (ctAux true)).sum = ctAux true (cur.reverse ++ l) := by
  induction l, cur using splitTwoSpacesAux.induct with
  | case1 cur =>
    simp [splitTwoSpacesAux, ctAux]
  | case2 cs cur ih =>
    simp only [List.reverse_nil, List.nil_append] at ih
    simp only [splitTwoSpacesAux, List.map_cons, List.sum_cons, ih]
    rw [ctAux_append, ctAux_ws_head _ _ _ (by simp [isWS]),
      ctAux_ws_head _ _ _ (by simp [isWS])]
  | case3 c cs cur h1 ih =>
    simp only [List.reverse_cons, List.append_assoc, List.singleton_append] at ih
    simp only [splitTwoSpacesAux, ih]

theorem ct_splitTwoSpaces (l : List Char) :
    ((splitTwoSpaces l).map (ctAux true)).sum = ctAux true l := by
  have := ct_splitTwoSpaces_aux l []
  simpa [splitTwoSpaces] using this

theorem ct_joinSp (parts : List (List Char)) :
    ctAux true (joinSp parts) = (parts.map (ctAux true)).sum := by
  induction parts with
  | nil => rfl
  | cons x xs ih =>
    cases xs with
    | nil => simp [joinSp]
    | cons y ys =>
      simp only [joinSp, List.map_cons, List.sum_cons]
      rw [ctAux_append, ctAux_ws_head _ _ _ (by simp [isWS]), ih]
      simp [joinSp]

theorem ct_filter_nonempty (parts : List (List Char)) :
    ((parts.filter (fun c => !c.isEmpty)).map (ctAux true)).sum
      = (parts.map (ctAux true)).sum := by
  induction parts with
  | nil => rfl
  | cons x xs ih =>
    by_cases h : x.isEmpty
    · have hx : x = [] := by simpa [List.isEmpty_iff] using h
      simp [List.filter_cons, h, hx, ih, ctAux]
    · simp [List.filter_cons, h, ih]

theorem ct_map_pyStrip (parts : List (List Char)) :
    ((parts.map pyStrip).map (ctAux true)).sum = (parts.map (ctAux true)).sum := by
  rw [List.map_map]
  congr 1
  apply List.map_congr_left
  intro x _
  exact ctAux_pyStrip x

theorem ct_flatMap_chunks (lines : List (List Char)) :
    ((lines.flatMap (fun line => (splitTwoSpaces line).map pyStrip)).map
      (ctAux true)).sum = (lines.map (ctAux true)).sum := by
  induction lines with
  | nil => rfl
  | cons x xs ih =>
    simp only [List.flatMap_cons, List.map_append, List.sum_append, ih]
    congr 1
    rw [ct_map_pyStrip, ct_splitTwoSpaces]

/-- The chunking pipeline of `extract_word_count` computes exactly the number
of whitespace-delimited tokens of its input text. -/
theorem wordCountOfText_eq_tokens (text : List Char) :
    wordCountOfText text = (pySplit text).length := by
  rw [wordCountOfText, pySplit_length, pySplit_length, ct_joinSp,
    ct_filter_nonempty, ct_flatMap_chunks, ct_map_pyStrip, ct_pySplitlines]

/-!
Claim theorems.
-/

/-- C6: for every document, the word count computed by the line-splitting and
double-space chunking pipeline of `extract_word_count` equals the number of
whitespace-delimited tokens of the document's visible text with script and
style subtrees removed before text extraction. -/
theorem word_count_counts_tokens (doc : Doc) :
    (extract_word_count doc).1.word_count
      = (pySplit (getTextL (stripScriptsL doc))).length := by
  simpa [extract_word_count] using
    wordCountOfText_eq_tokens (getTextL (stripScriptsL doc))

/-- C5: the optimality flags are pure functions of their corresponding
length and count fields, with exact inclusive thresholds: title in [30,60],
meta description in [120,160], exactly one h1, and word count at least 300. -/
theorem optimality_thresholds (doc : Doc) :
    (extract_title doc).title_optimal
      = decide (30 ≤ (extract_title doc).title_length
          ∧ (extract_title doc).title_length ≤ 60) ∧
    (extract_meta_description doc).meta_description_optimal
      = decide (120 ≤ (extract_meta_description doc).meta_description_length
          ∧ (extract_meta_description doc).meta_description_length ≤ 160) ∧
    (extract_headings doc).h1_optimal
      = ((extract_headings doc).heading_counts.getD 0 0 == 1) ∧
    (extract_word_count doc).1.content_length_optimal
      = decide (300 ≤ (extract_word_count doc).1.word_count) := by
  refine ⟨rfl, rfl, ?_, rfl⟩
  simp [extract_headings, headingTags]

theorem analyze_urls_foldl_eq_map (env : Env) (ts : Nat) (urls : List (List Char))
    (acc : List AnalysisResult) :
    urls.foldl (fun results url => results ++ [analyze_url env ts url]) acc
      = acc ++ urls.map (analyze_url env ts) := by
  induction urls generalizing acc with
  | nil => simp
  | cons u us ih => simp [List.foldl_cons, ih]

/-- C4: batch analysis produces exactly one result per input URL, in input
order, and the result of each URL is a function of that URL alone, so one
URL's failure never aborts the batch or alters the other results. -/
theorem batch_one_result_per_url (env : Env) (ts : Nat) :
    (∀ urls, analyze_urls env ts urls = urls.map (analyze_url env ts)) ∧
    (∀ urls, (analyze_urls env ts urls).length = urls.length) ∧
    (∀ us vs, analyze_urls env ts (us ++ vs)
      = analyze_urls env ts us ++ analyze_urls env ts vs) := by
  have hmap : ∀ urls, analyze_urls env ts urls = urls.map (analyze_url env ts) := by
    intro urls
    simpa [analyze_urls] using analyze_urls_foldl_eq_map env ts urls []
  refine ⟨hmap, ?_, ?_⟩
  · intro urls; simp [hmap]
  · intro us vs; simp [hmap]

/-- C1: the score aggregator computes the Title, Meta and H1 categories on
the 100/50/0 tiering, Content as 100 or 50 and never 0, Technical and Social
as means of three 100-or-0 booleans, Images as 100 when there are no images
and as the alt-optimization ratio times 100 otherwise, and the overall score
as the unweighted arithmetic mean of the seven category scores, as a pure
function of the stored result. -/
theorem score_aggregator_spec (r : AnalysisResult) :
    title_score r
      = (if getFlag (r.title_info.map (fun t => t.title_optimal)) then 100
         else if getFlag (r.title_info.map (fun t => t.title_exists)) then 50 else 0) ∧
    meta_score r
      = (if getFlag (r.meta_info.map (fun m => m.meta_description_optimal)) then 100
         else if getFlag (r.meta_info.map (fun m => m.meta_description_exists)) then 50
         else 0) ∧
    h1_score r
      = (if getFlag (r.headings_info.map (fun h => h.h1_optimal)) then 100
         else if getFlag (r.headings_info.map (fun h => h.has_h1)) then 50 else 0) ∧
    content_score r
      = (if getFlag (r.word_count_info.map (fun w => w.content_length_optimal)) then 100
         else 50) ∧
    (content_score r = 100 ∨ content_score r = 50) ∧
    technical_score r
      = ((if getFlag (r.site_info.map (fun s => s.robots_txt_exists)) then 100 else 0)
         + (if getFlag (r.site_info.map (fun s => s.sitemap_xml_exists)) then 100 else 0)
         + (if getFlag (r.canonical_info.map (fun c => c.canonical_exists)) then 100
            else 0)) / 3 ∧
    images_score r
      = (if (r.images_info.map (fun i => i.total_images)).getD 0 = 0 then 100
         else ((r.images_info.map (fun i => i.images_alt_optimization)).getD 0) * 100) ∧
    social_score r
      = ((if getFlag (r.social_info.map (fun s => s.has_og_title)) then 100 else 0)
         + (if getFlag (r.social_info.map (fun s => s.has_og_description)) then 100 else 0)
         + (if getFlag (r.social_info.map (fun s => s.has_og_image)) then 100 else 0)) / 3 ∧
    overall_score r
      = (title_score r + meta_score r + h1_score r + content_score r
         + technical_score r + images_score r + social_score r) / 7 := by
  refine ⟨rfl, rfl, rfl, rfl, ?_, rfl, ?_, rfl, rfl⟩
  · by_cases h : getFlag (r.word_count_info.map (fun w => w.content_length_optimal)) <;>
      simp [content_score, h]
  · rcases Nat.eq_zero_or_pos ((r.images_info.map (fun i => i.total_images)).getD 0)
      with h | h
    · simp [images_score, h]
    · simp [images_score, h, Nat.pos_iff_ne_zero.mp h]

theorem countAltMissing_spec (imgs : List Node) :
    countAltMissing imgs
      = ((imgs.filter (fun n => !(n.hasAttr "alt"))).length,
         (imgs.filter (fun n =>
           n.hasAttr "alt" && (pyStrip ((n.attr "alt").getD [])).isEmpty)).length) := by
  induction imgs with
  | nil => rfl
  | cons img rest ih =>
    by_cases h1 : img.hasAttr "alt"
    · by_cases h2 : (pyStrip ((img.attr "alt").getD [])).isEmpty
      · simp [countAltMissing, h1, h2, List.filter_cons, ih]
      · simp [countAltMissing, h1, h2, List.filter_cons, ih]
    · simp [countAltMissing, h1, List.filter_cons, ih]

theorem countAltMissing_le (imgs : List Node) :
    (countAltMissing imgs).1 + (countAltMissing imgs).2 ≤ imgs.length := by
  induction imgs with
  | nil => simp [countAltMissing]
  | cons img rest ih =>
    by_cases h1 : img.hasAttr "alt"
    · by_cases h2 : (pyStrip ((img.attr "alt").getD [])).isEmpty
      · simp [countAltMissing, h1, h2]; omega
      · simp [countAltMissing, h1, h2]; omega
    · simp [countAltMissing, h1]; omega

/-- C7: an image is counted without alt exactly when the alt attribute is
absent, with empty alt exactly when it is present but blank after trimming,
the two counts are mutually exclusive so their sum is at most the total, the
ratio is (total - without - empty) / max(total, 1), and the ratio lies in
[0, 1]. -/
theorem image_alt_accounting (doc : Doc) :
    (extract_images doc).images_without_alt
      = ((findAllL (isElem "img") doc).filter (fun n => !(n.hasAttr "alt"))).length ∧
    (extract_images doc).images_with_empty_alt
      = ((findAllL (isElem "img") doc).filter (fun n =>
          n.hasAttr "alt" && (pyStrip ((n.attr "alt").getD [])).isEmpty)).length ∧
    (extract_images doc).images_without_alt + (extract_images doc).images_with_empty_alt
      ≤ (extract_images doc).total_images ∧
    (extract_images doc).images_alt_optimization
      = (((extract_images doc).total_images : ℚ)
          - (extract_images doc).images_without_alt
          - (extract_images doc).images_with_empty_alt)
        / ((max (extract_images doc).total_images 1 : Nat) : ℚ) ∧
    0 ≤ (extract_images doc).images_alt_optimization ∧
    (extract_images doc).images_alt_optimization ≤ 1 := by
  have hspec := countAltMissing_spec (findAllL (isElem "img") doc)
  have hle := countAltMissing_le (findAllL (isElem "img") doc)
  refine ⟨?_, ?_, ?_, ?_, ?_, ?_⟩
  · simp [extract_images, hspec]
  · simp [extract_images, hspec]
  · simpa [extract_images] using hle
  · rfl
  · have hnum : (0 : ℚ)
        ≤ ((findAllL (isElem "img") doc).length : ℚ)
          - (countAltMissing (findAllL (isElem "img") doc)).1
          - (countAltMissing (findAllL (isElem "img") doc)).2 := by
      have : ((countAltMissing (findAllL (isElem "img") doc)).1 : ℚ)
          + ((countAltMissing (findAllL (isElem "img") doc)).2 : ℚ)
          ≤ ((findAllL (isElem "img") doc).length : ℚ) := by exact_mod_cast hle
      linarith
    have hden : (0 : ℚ) ≤ ((max (findAllL (isElem "img") doc).length 1 : Nat) : ℚ) := by
      positivity
    exact div_nonneg hnum hden
  · have hdenpos : (0 : ℚ) < ((max (findAllL (isElem "img") doc).length 1 : Nat) : ℚ) := by
      have : (1 : Nat) ≤ max (findAllL (isElem "img") doc).length 1 := le_max_right _ _
      exact_mod_cast Nat.lt_of_lt_of_le Nat.zero_lt_one this
    rw [extract_images]
    refine (div_le_one hdenpos).mpr ?_
    have hcast : ((findAllL (isElem "img") doc).length : ℚ)
        ≤ ((max (findAllL (isElem "img") doc).length 1 : Nat) : ℚ) := by
      exact_mod_cast le_max_left (findAllL (isElem "img") doc).length 1
    have h1 : (0 : ℚ) ≤ ((countAltMissing (findAllL (isElem "img") doc)).1 : ℚ) := by
      positivity
    have h2 : (0 : ℚ) ≤ ((countAltMissing (findAllL (isElem "img") doc)).2 : ℚ) := by
      positivity
    linarith

theorem brokenStep_foldl (env : Env) (l : List (List Char)) (n : Nat)
    (acc : List BrokenLink) :
    l.foldl (brokenStep env) (n, acc)
      = (n + l.length, acc ++ l.filterMap (brokenProbe env)) := by
  induction l generalizing n acc with
  | nil => simp
  | cons x xs ih =>
    simp only [List.foldl_cons, List.filterMap_cons]
    cases hp : env.headStatus x with
    | ok code =>
      by_cases hc : 400 ≤ code
      · rw [show brokenStep env (n, acc) x
            = (n + 1, acc ++ [{ url := x, status_code := some code, error := none }]) by
            simp [brokenStep, hp, hc]]
        rw [ih, show brokenProbe env x
            = some { url := x, status_code := some code, error := none } by
            simp [brokenProbe, hp, hc]]
        simp
        omega
      · rw [show brokenStep env (n, acc) x = (n + 1, acc) by simp [brokenStep, hp, hc]]
        rw [ih, show brokenProbe env x = none by simp [brokenProbe, hp, hc]]
        simp
        omega
    | error e =>
      rw [show brokenStep env (n, acc) x
          = (n + 1, acc ++ [{ url := x, status_code := none, error := some e }]) by
          simp [brokenStep, hp]]
      rw [ih, show brokenProbe env x
          = some { url := x, status_code := none, error := some e } by
          simp [brokenProbe, hp]]
      simp
      omega

/-- C9: the link sampler probes exactly the first 20 links of the
caller-supplied sequence in order; a link is recorded as broken (in sampled
order, by `brokenProbe`) exactly when its probe returns a status of at least
400 or fails at transport level; checked_links counts every probed link; and
the orchestrator feeds the sampler the combined internal plus external link
list of the extraction. -/
theorem link_sampler_spec (env : Env) :
    (∀ links, (check_broken_links env links).checked_links = (links.take 20).length) ∧
    (∀ links, (check_broken_links env links).broken_links
      = (links.take 20).filterMap (brokenProbe env)) ∧
    (∀ links, (check_broken_links env links).broken_links_count
      = (check_broken_links env links).broken_links.length) ∧
    (∀ ts url, (analyze_url env ts url).broken_info
      = (analyze_url env ts url).links_info.map
          (fun L => check_broken_links env (L.internal_links ++ L.external_links))) := by
  have hfold : ∀ links : List (List Char),
      (links.take 20).foldl (brokenStep env) (0, ([] : List BrokenLink))
        = ((links.take 20).length, (links.take 20).filterMap (brokenProbe env)) := by
    intro links
    simpa using brokenStep_foldl env (links.take 20) 0 []
  refine ⟨?_, ?_, ?_, ?_⟩
  · intro links; simp [check_broken_links, hfold]
  · intro links; simp [check_broken_links, hfold]
  · intro links; simp [check_broken_links, hfold]
  · intro ts url
    cases hf : fetch_page env url with
    | none => simp [analyze_url, hf]
    | some pd =>
      cases he : extract_links_exc (extract_word_count pd.content).2 url with
      | none => simp [analyze_url, hf, he]
      | some e => simp [analyze_url, hf, he]

/-- C3 (amended): whenever analysis is not successful the error message is
populated; a fetch failure (in particular a fetch returning HTTP 404) yields
a result carrying only url, timestamp, the failure flag and the error, with
every content-derived field absent; a URL-parsing exception raised inside
extract_links instead leaves exactly the fields merged before the raise
(fetch data, title, meta description, canonical, headings, word count,
images) populated, with the link, link-health, site, social and backlink
fields absent. -/
theorem failure_result_shape (env : Env) (ts : Nat) (url : List Char) :
    ((analyze_url env ts url).analysis_successful = false →
      (analyze_url env ts url).error.isSome = true) ∧
    (fetch_page env url = none →
      (analyze_url env ts url).analysis_successful = false ∧
      (analyze_url env ts url).error = some ("Failed to fetch page".toList) ∧
      (analyze_url env ts url).load_time = none ∧
      (analyze_url env ts url).status_code = none ∧
      (analyze_url env ts url).final_url = none ∧
      (analyze_url env ts url).title_info = none ∧
      (analyze_url env ts url).meta_info = none ∧
      (analyze_url env ts url).canonical_info = none ∧
      (analyze_url env ts url).headings_info = none ∧
      (analyze_url env ts url).word_count_info = none ∧
      (analyze_url env ts url).images_info = none ∧
      (analyze_url env ts url).links_info = none ∧
      (analyze_url env ts url).broken_info = none ∧
      (analyze_url env ts url).site_info = none ∧
      (analyze_url env ts url).social_info = none ∧
      (analyze_url env ts url).backlink_info = none) ∧
    (∀ resp, env.get url = some resp → resp.status_code = 404 →
      fetch_page env url = none) ∧
    (∀ pd, fetch_page env url = some pd →
      (analyze_url env ts url).analysis_successful = false →
      (analyze_url env ts url).error
        = extract_links_exc (extract_word_count pd.content).2 url ∧
      (analyze_url env ts url).load_time = some pd.load_time ∧
      (analyze_url env ts url).status_code = some pd.status_code ∧
      (analyze_url env ts url).final_url = some pd.final_url ∧
      (analyze_url env ts url).title_info = some (extract_title pd.content) ∧
      (analyze_url env ts url).meta_info
        = some (extract_meta_description pd.content) ∧
      (analyze_url env ts url).canonical_info
        = some (extract_canonical_url pd.content) ∧
      (analyze_url env ts url).headings_info = some (extract_headings pd.content) ∧
      (analyze_url env ts url).word_count_info
        = some (extract_word_count pd.content).1 ∧
      (analyze_url env ts url).images_info
        = some (extract_images (extract_word_count pd.content).2) ∧
      (analyze_url env ts url).links_info = none ∧
      (analyze_url env ts url).broken_info = none ∧
      (analyze_url env ts url).site_info = none ∧
      (analyze_url env ts url).social_info = none ∧
      (analyze_url env ts url).backlink_info = none) := by
  cases hf : fetch_page env url with
  | none =>
    refine ⟨?_, ?_, ?_, ?_⟩
    · intro _
      simp [analyze_url, hf]
    · intro _
      simp [analyze_url, hf]
    · intro resp hr h404
      rfl
    · intro pd hpd hflag
      exact absurd hpd (by simp)
  | some pd =>
    cases he : extract_links_exc (extract_word_count pd.content).2 url with
    | some e =>
      refine ⟨?_, ?_, ?_, ?_⟩
      · intro _
        simp [analyze_url, hf, he]
      · intro hn
        exact absurd hn (by simp)
      · intro resp hr h404
        exfalso
        simp [fetch_page, hr, h404] at hf
      · intro pd2 hpd2 hflag
        injection hpd2 with hpd2
        subst hpd2
        simp [analyze_url, hf, he]
    | none =>
      refine ⟨?_, ?_, ?_, ?_⟩
      · intro h
        simp [analyze_url, hf, he] at h
      · intro hn
        exact absurd hn (by simp)
      · intro resp hr h404
        exfalso
        simp [fetch_page, hr, h404] at hf
      · intro pd2 hpd2 hflag
        injection hpd2 with hpd2
        subst hpd2
        simp [analyze_url, hf, he] at hflag

/-- Witness for C3 at concrete environments: a 404 fetch yields the
identity-only failure shape, and a successfully fetched page whose anchor
href is "http://[" yields the partially populated failure shape. -/
theorem failure_result_shape_witness :
    (analyze_url env404 0 []).analysis_successful = false ∧
    (analyze_url env404 0 []).error = some ("Failed to fetch page".toList) ∧
    (analyze_url env404 0 []).title_info = none ∧
    (analyze_url env404 0 []).links_info = none ∧
    (analyze_url envBadHref 0 []).error.isSome = true ∧
    (analyze_url envBadHref 0 []).title_info = some (extract_title ipv6Doc) ∧
    (analyze_url envBadHref 0 []).links_info = none := by
  have h404 := failure_result_shape env404 0 []
  have hfn : fetch_page env404 [] = none := rfl
  have hfields := h404.2.1 hfn
  have hbad := failure_result_shape envBadHref 0 []
  have hpd : fetch_page envBadHref []
      = some { content := ipv6Doc, load_time := 0, status_code := 200,
               final_url := [] } := rfl
  have hflag : (analyze_url envBadHref 0 []).analysis_successful = false := rfl
  have hx := hbad.2.2.2 _ hpd hflag
  have he := hbad.1 hflag
  exact ⟨hfields.1, hfields.2.1, hfields.2.2.2.2.2.1,
    hfields.2.2.2.2.2.2.2.2.2.2.2.1, he, hx.2.2.2.2.1,
    hx.2.2.2.2.2.2.2.2.2.2.1⟩

/-- C3 counterexample: a successfully fetched page whose only anchor has the
href "http://[" makes the URL parsing inside extract_links raise, so the
result has analysis_successful false and a populated error while title,
headings, word count and images are still present, refuting the claim that
an unsuccessful result carries no content-derived fields. -/
theorem failure_with_content_fields :
    (analyze_url envBadHref 0 []).analysis_successful = false ∧
    (analyze_url envBadHref 0 []).error = some ("Invalid IPv6 URL".toList) ∧
    (analyze_url envBadHref 0 []).title_info ≠ none ∧
    (analyze_url envBadHref 0 []).headings_info ≠ none ∧
    (analyze_url envBadHref 0 []).word_count_info ≠ none ∧
    (analyze_url envBadHref 0 []).images_info ≠ none := by
  refine ⟨rfl, rfl, ?_, ?_, ?_, ?_⟩ <;> decide

/-- C10: a title element or meta-description content attribute that is
present but blank after stripping is indistinguishable in the result from an
absent tag: the existence flag is false, the length 0, and the aggregator
scores the category 0 rather than 50. -/
theorem blank_title_meta_zero_score
    (docT docM : Doc) (n m : Node)
    (ht : (findAllL (isElem "title") docT).head? = some n)
    (he : pyStrip (getTextN n) = [])
    (hm : (findAllL isMetaDescription docM).head? = some m)
    (hc : pyStrip ((m.attr "content").getD []) = []) :
    extract_title docT
      = { title := [], title_length := 0, title_exists := false,
          title_optimal := false } ∧
    extract_title docT = extract_title [] ∧
    extract_meta_description docM
      = { meta_description := [], meta_description_length := 0,
          meta_description_exists := false, meta_description_optimal := false } ∧
    extract_meta_description docM = extract_meta_description [] ∧
    (∀ r : AnalysisResult, r.title_info = some (extract_title docT) →
      title_score r = 0) ∧
    (∀ r : AnalysisResult, r.meta_info = some (extract_meta_description docM) →
      meta_score r = 0) := by
  have hT : extract_title docT
      = { title := [], title_length := 0, title_exists := false,
          title_optimal := false } := by
    simp [extract_title, ht, he]
  have hM : extract_meta_description docM
      = { meta_description := [], meta_description_length := 0,
          meta_description_exists := false, meta_description_optimal := false } := by
    simp [extract_meta_description, hm, hc]
  refine ⟨hT, ?_, hM, ?_, ?_, ?_⟩
  · rw [hT]; rfl
  · rw [hM]; rfl
  · intro r hr
    rw [hT] at hr
    simp [title_score, getFlag, hr]
  · intro r hr
    rw [hM] at hr
    simp [meta_score, getFlag, hr]

/-- Witness for C10 at concrete blank-title and blank-meta documents. -/
theorem blank_title_meta_zero_score_witness :
    extract_title blankTitleDoc
      = { title := [], title_length := 0, title_exists := false,
          title_optimal := false } ∧
    extract_meta_description blankMetaDoc
      = { meta_description := [], meta_description_length := 0,
          meta_description_exists := false, meta_description_optimal := false } := by
  have h := blank_title_meta_zero_score blankTitleDoc blankMetaDoc
    blankTitleNode blankMetaNode rfl rfl rfl rfl
  exact ⟨h.1, h.2.2.1⟩

/-- C2 counterexample: a document whose only anchor has the fragment-only
href "#sec". The claim states such anchors are excluded from the total link
count as well, but `extract_links` counts every anchor that has an href
attribute: the partitions are empty while total_links is 1, not 0. -/
theorem total_links_counts_fragment_anchor :
    (extract_links fragmentOnlyDoc fragmentOnlyBase).internal_links = [] ∧
    (extract_links fragmentOnlyDoc fragmentOnlyBase).external_links = [] ∧
    (extract_links fragmentOnlyDoc fragmentOnlyBase).total_links = 1 := by
  refine ⟨rfl, rfl, rfl⟩

theorem partitionHrefs_spec (base : List Char) (hrefs : List (List Char)) :
    partitionHrefs base hrefs
      = ((resolvedHrefs base hrefs).filter (fun u => netlocOf u == netlocOf base),
         (resolvedHrefs base hrefs).filter (fun u => !(netlocOf u == netlocOf base))) := by
  induction hrefs with
  | nil => rfl
  | cons href rest ih =>
    by_cases hskip : (pyStrip href).isEmpty || headIsHash (pyStrip href)
    · simp [partitionHrefs, resolvedHrefs, resolveOne, hskip, ih,
        List.filterMap_cons]
    · by_cases hint : netlocOf (cleanResolve base (pyStrip href)) == netlocOf base
      · simp [partitionHrefs, resolvedHrefs, resolveOne, hskip, hint, ih,
          List.filterMap_cons, List.filter_cons]
      · simp [partitionHrefs, resolvedHrefs, resolveOne, hskip, hint, ih,
          List.filterMap_cons, List.filter_cons]

/-- C2 (amended): anchors with empty or fragment-only hrefs are excluded
from the partitioned sets but not from the total link count, which counts
every anchor carrying an href attribute; the remaining hrefs are resolved
against the base URL, defragmented, partitioned by host equality with the
base URL and deduplicated by exact string equality, so the two partitions
are disjoint and together cover exactly the resolved non-excluded anchors. -/
theorem link_partition_amended (doc : Doc) (base : List Char) :
    (extract_links doc base).internal_links
      = ((resolvedHrefs base (docHrefs doc)).filter
          (fun u => netlocOf u == netlocOf base)).dedup ∧
    (extract_links doc base).external_links
      = ((resolvedHrefs base (docHrefs doc)).filter
          (fun u => !(netlocOf u == netlocOf base))).dedup ∧
    ((extract_links doc base).internal_links.all
      (fun u => !((extract_links doc base).external_links.contains u))) = true ∧
    ((resolvedHrefs base (docHrefs doc)).all
      (fun u => (extract_links doc base).internal_links.contains u
        || (extract_links doc base).external_links.contains u)) = true ∧
    (extract_links doc base).total_links = (anchorTags doc).length ∧
    (extract_links doc base).internal_links_count
      = (extract_links doc base).internal_links.length ∧
    (extract_links doc base).external_links_count
      = (extract_links doc base).external_links.length := by
  have hpart := partitionHrefs_spec base (docHrefs doc)
  simp only [docHrefs] at hpart
  have hint : (extract_links doc base).internal_links
      = ((resolvedHrefs base (docHrefs doc)).filter
          (fun u => netlocOf u == netlocOf base)).dedup := by
    simp [extract_links, hpart, docHrefs]
  have hext : (extract_links doc base).external_links
      = ((resolvedHrefs base (docHrefs doc)).filter
          (fun u => !(netlocOf u == netlocOf base))).dedup := by
    simp [extract_links, hpart, docHrefs]
  refine ⟨hint, hext, ?_, ?_, rfl, ?_, ?_⟩
  · rw [List.all_eq_true]
    intro u hu
    have hmemi : u ∈ ((resolvedHrefs base (docHrefs doc)).filter
        (fun v => netlocOf v == netlocOf base)) := by
      rw [hint] at hu
      exact List.mem_dedup.mp hu
    have hptrue := (List.mem_filter.mp hmemi).2
    have hnot : u ∉ (extract_links doc base).external_links := by
      rw [hext]
      intro hcontra
      have := (List.mem_filter.mp (List.mem_dedup.mp hcontra)).2
      simp [hptrue] at this
    simpa using hnot
  · rw [List.all_eq_true]
    intro u hu
    by_cases hp : netlocOf u == netlocOf base
    · have : u ∈ (extract_links doc base).internal_links := by
        rw [hint]
        exact List.mem_dedup.mpr (List.mem_filter.mpr ⟨hu, hp⟩)
      simp [this]
    · have : u ∈ (extract_links doc base).external_links := by
        rw [hext]
        refine List.mem_dedup.mpr (List.mem_filter.mpr ⟨hu, ?_⟩)
        simp [hp]
      simp [this]
  · rw [hint]; simp [extract_links, hpart, docHrefs]
  · rw [hext]; simp [extract_links, hpart, docHrefs]

/-- C8 counterexample: `extract_word_count` removes script subtrees from the
shared parsed tree, so an extractor that reads element text gives a
different result when run after it: on a document with a script inside the
h1, the headings extracted after word counting differ from those extracted
before. -/
theorem word_count_mutates_tree :
    extract_headings ((extract_word_count scriptInH1Doc).2)
      ≠ extract_headings scriptInH1Doc := by
  decide

/-- C8 (amended): every extractor except `extract_word_count` is a pure
function of the parsed tree; `extract_word_count` removes script and style
subtrees from the shared tree, so extractor results are order-independent
exactly on documents without script or style elements, where the tree is
left unchanged. -/
theorem extractors_pure_without_scripts (doc : Doc)
    (h : noScriptStyleL doc = true) :
    (extract_word_count doc).2 = doc ∧
    extract_headings ((extract_word_count doc).2) = extract_headings doc ∧
    extract_images ((extract_word_count doc).2) = extract_images doc ∧
    extract_social_meta_tags ((extract_word_count doc).2)
      = extract_social_meta_tags doc := by
  have hid : stripScriptsL doc = doc := stripScriptsL_id doc h
  refine ⟨?_, ?_, ?_, ?_⟩ <;> simp [extract_word_count, hid]

/-- Witness for C8 (amended) at a concrete script-free document. -/
theorem extractors_pure_without_scripts_witness :
    noScriptStyleL plainDoc = true ∧ (extract_word_count plainDoc).2 = plainDoc := by
  have h : noScriptStyleL plainDoc = true := by decide
  exact ⟨h, (extractors_pure_without_scripts plainDoc h).1⟩
